import Mathlib

/-!
Verification of the pizza-workshop repository: the pizza estimator
(`calculate_pizza_for_people` from `tools.py`), the tool-call dispatch loop
(`handle_tool_calls` from `agent.py`) and the HTTP facade
(`calculate_pizza` from `pizza_api.py`), shallowly embedded in Lean.

JSON values are modelled by an inductive type; the Python `json.loads` and
`json.dumps` library functions are external to the repository and are
modelled as parameters (`loads : String → Option Json`, failing with `none`
exactly where `json.loads` raises, and `dumps : Json → String`).
-/

namespace PizzaWorkshop

/-- JSON values, as produced by parsing a tool call's argument string and as
returned by tool handlers. -/
inductive Json where
  | null : Json
  | bool : Bool → Json
  | num : Int → Json
  | str : String → Json
  | arr : List Json → Json
  | obj : List (String × Json) → Json

/-! ## PizzaEstimator -/

/-- Modelled from the spec: the per-person slice rate of
`calculate_pizza_for_people`, whose defining file `tools.py` is not among
the repository's source files (only its callers in `agent.py` and
`pizza_api.py` are).  Spec 4.1: light=2, normal=3, heavy=4 slices;
an unrecognized appetite level is rejected. -/
def rate (appetite_level : String) : Option Nat :=
  if appetite_level = "light" then some 2
  else if appetite_level = "normal" then some 3
  else if appetite_level = "heavy" then some 4
  else none

/-- Modelled from the spec: the fixed slices-per-pizza configuration
constant of `tools.py` (spec 4.1: "commonly 8"). -/
def slices_per_pizza : Nat := 8

/-- The estimator's result record (spec 3: PizzaOrderEstimate). -/
structure PizzaOrderEstimate where
  pizza_count : Nat
  slices_per_person : Nat
deriving Repr, DecidableEq

/-- Modelled from the spec: `calculate_pizza_for_people` from `tools.py`,
which is not among the repository's source files.  Spec 4.1:
total_slices = people_count × rate(appetite_level);
pizza_count = ceiling(total_slices / slices_per_pizza); the result also
reports slices_per_person = rate(appetite_level); fails with
InvalidArgument when people_count ≤ 0 or the appetite level is not
recognized. -/
def calculate_pizza_for_people (people_count : Int) (appetite_level : String) :
    Except String PizzaOrderEstimate :=
  match rate appetite_level with
  | none => Except.error "InvalidArgument"
  | some r =>
    if people_count ≤ 0 then Except.error "InvalidArgument"
    else Except.ok
      { pizza_count := (people_count.toNat * r + (slices_per_pizza - 1)) / slices_per_pizza
        slices_per_person := r }

/-- Ceiling division by 8 on naturals agrees with the rational ceiling. -/
lemma nat_ceil_div_eight (a : ℕ) :
    (((a + 7) / 8 : ℕ) : ℤ) = ⌈(a : ℚ) / 8⌉ := by
  set n : ℕ := (a + 7) / 8 with hn
  have h1 : a ≤ 8 * n := by omega
  have h2 : 8 * n < a + 8 := by omega
  have h1q : (a : ℚ) ≤ 8 * n := by exact_mod_cast h1
  have h2q : (8 : ℚ) * n < a + 8 := by exact_mod_cast h2
  symm
  rw [Int.ceil_eq_iff]
  constructor
  · rw [lt_div_iff₀ (by norm_num : (0 : ℚ) < 8)]
    push_cast
    linarith
  · rw [div_le_iff₀ (by norm_num : (0 : ℚ) < 8)]
    push_cast
    linarith

/-- Evaluation of the estimator on a valid input. -/
lemma calculate_ok (p : Int) (hp : 0 < p) (r : Nat) (l : String)
    (hr : rate l = some r) :
    calculate_pizza_for_people p l = Except.ok ⟨(p.toNat * r + 7) / 8, r⟩ := by
  simp only [calculate_pizza_for_people, hr, slices_per_pizza]
  rw [if_neg (not_le.mpr hp)]

/-- C1: for every positive people_count and recognized appetite level, the
estimator returns pizza_count = ⌈people_count · rate / slices_per_pizza⌉ and
slices_per_person = rate, with rates light=2, normal=3, heavy=4 and
slices_per_pizza = 8; in particular estimate(4, light) = (1 pizza, 2 slices
each) and estimate(10, heavy) = (5 pizzas, 4 slices each). -/
theorem estimate_pizza_count_ceiling (p : Int) (hp : 0 < p) (l : String)
    (hl : l = "light" ∨ l = "normal" ∨ l = "heavy") :
    ∃ r est, rate l = some r ∧
      calculate_pizza_for_people p l = Except.ok est ∧
      (est.pizza_count : ℤ) = ⌈((p : ℚ) * (r : ℚ)) / ((slices_per_pizza : ℕ) : ℚ)⌉ ∧
      est.slices_per_person = r ∧
      rate "light" = some 2 ∧ rate "normal" = some 3 ∧ rate "heavy" = some 4 ∧
      slices_per_pizza = 8 ∧
      calculate_pizza_for_people 4 "light" = Except.ok ⟨1, 2⟩ ∧
      calculate_pizza_for_people 10 "heavy" = Except.ok ⟨5, 4⟩ := by
  have hp2 : ((p.toNat : ℕ) : ℚ) = (p : ℚ) := by
    exact_mod_cast Int.toNat_of_nonneg hp.le
  have hcast : ∀ r : ℕ, (p : ℚ) * (r : ℚ) = ((p.toNat * r : ℕ) : ℚ) := by
    intro r
    push_cast
    rw [hp2]
  have hmain : ∀ r : ℕ, rate l = some r →
      ∃ est, calculate_pizza_for_people p l = Except.ok est ∧
        (est.pizza_count : ℤ) = ⌈((p : ℚ) * (r : ℚ)) / ((slices_per_pizza : ℕ) : ℚ)⌉ ∧
        est.slices_per_person = r := by
    intro r hr
    refine ⟨⟨(p.toNat * r + 7) / 8, r⟩, calculate_ok p hp r l hr, ?_, rfl⟩
    show (((p.toNat * r + 7) / 8 : ℕ) : ℤ) = _
    rw [nat_ceil_div_eight (p.toNat * r), hcast r]
    norm_num [slices_per_pizza]
  rcases hl with h | h | h <;> subst h
  · obtain ⟨est, h1, h2, h3⟩ := hmain 2 rfl
    exact ⟨2, est, rfl, h1, h2, h3, rfl, rfl, rfl, rfl, rfl, rfl⟩
  · obtain ⟨est, h1, h2, h3⟩ := hmain 3 rfl
    exact ⟨3, est, rfl, h1, h2, h3, rfl, rfl, rfl, rfl, rfl, rfl⟩
  · obtain ⟨est, h1, h2, h3⟩ := hmain 4 rfl
    exact ⟨4, est, rfl, h1, h2, h3, rfl, rfl, rfl, rfl, rfl, rfl⟩

/-- Witness for C1 at people_count = 10, appetite level heavy. -/
theorem estimate_pizza_count_ceiling_witness :
    ∃ r est, rate "heavy" = some r ∧
      calculate_pizza_for_people 10 "heavy" = Except.ok est ∧
      (est.pizza_count : ℤ) = ⌈((10 : ℚ) * (r : ℚ)) / ((slices_per_pizza : ℕ) : ℚ)⌉ ∧
      est.slices_per_person = r ∧
      rate "light" = some 2 ∧ rate "normal" = some 3 ∧ rate "heavy" = some 4 ∧
      slices_per_pizza = 8 ∧
      calculate_pizza_for_people 4 "light" = Except.ok ⟨1, 2⟩ ∧
      calculate_pizza_for_people 10 "heavy" = Except.ok ⟨5, 4⟩ :=
  estimate_pizza_count_ceiling 10 (by norm_num) "heavy" (Or.inr (Or.inr rfl))

/-- C2: for a fixed recognized appetite level, pizza_count is monotonically
non-decreasing in people_count. -/
theorem estimate_monotone (p q : Int) (hp : 0 < p) (hpq : p ≤ q) (l : String)
    (hl : l = "light" ∨ l = "normal" ∨ l = "heavy")
    (estp estq : PizzaOrderEstimate)
    (h1 : calculate_pizza_for_people p l = Except.ok estp)
    (h2 : calculate_pizza_for_people q l = Except.ok estq) :
    estp.pizza_count ≤ estq.pizza_count := by
  have hq : 0 < q := lt_of_lt_of_le hp hpq
  have htn : p.toNat ≤ q.toNat := Int.toNat_le_toNat hpq
  rcases hl with h | h | h <;> subst h
  · obtain rfl := Except.ok.inj (h1.symm.trans (calculate_ok p hp 2 "light" rfl))
    obtain rfl := Except.ok.inj (h2.symm.trans (calculate_ok q hq 2 "light" rfl))
    exact Nat.div_le_div_right (by omega)
  · obtain rfl := Except.ok.inj (h1.symm.trans (calculate_ok p hp 3 "normal" rfl))
    obtain rfl := Except.ok.inj (h2.symm.trans (calculate_ok q hq 3 "normal" rfl))
    exact Nat.div_le_div_right (by omega)
  · obtain rfl := Except.ok.inj (h1.symm.trans (calculate_ok p hp 4 "heavy" rfl))
    obtain rfl := Except.ok.inj (h2.symm.trans (calculate_ok q hq 4 "heavy" rfl))
    exact Nat.div_le_div_right (by omega)

/-- Witness for C2 at p = 3, q = 5, appetite level normal. -/
theorem estimate_monotone_witness :
    0 < (3 : Int) ∧ (3 : Int) ≤ 5 ∧
    calculate_pizza_for_people 3 "normal" = Except.ok ⟨2, 3⟩ ∧
    calculate_pizza_for_people 5 "normal" = Except.ok ⟨2, 3⟩ ∧
    (2 : Nat) ≤ 2 :=
  ⟨by norm_num, by norm_num, rfl, rfl,
    estimate_monotone 3 5 (by norm_num) (by norm_num) "normal" (Or.inr (Or.inl rfl))
      ⟨2, 3⟩ ⟨2, 3⟩ rfl rfl⟩

/-- C3: the estimator fails with InvalidArgument exactly when
people_count ≤ 0 or the appetite level is not in the recognized set; in
particular estimate(0, normal), estimate(-1, normal) and estimate(10, bogus)
all fail with InvalidArgument. -/
theorem estimate_invalid_argument_iff :
    (∀ (p : Int) (l : String),
      calculate_pizza_for_people p l = Except.error "InvalidArgument" ↔
        (p ≤ 0 ∨ (l ≠ "light" ∧ l ≠ "normal" ∧ l ≠ "heavy"))) ∧
    calculate_pizza_for_people 0 "normal" = Except.error "InvalidArgument" ∧
    calculate_pizza_for_people (-1) "normal" = Except.error "InvalidArgument" ∧
    calculate_pizza_for_people 10 "bogus" = Except.error "InvalidArgument" := by
  refine ⟨?_, rfl, rfl, rfl⟩
  intro p l
  by_cases hp : p ≤ 0 <;>
    simp only [calculate_pizza_for_people, rate] <;>
    split_ifs <;>
    simp_all

/-! ## ToolRegistry and ToolCallDispatcher (src/agent.py) -/

/-- A pending item of a service response, as inspected by
`handle_tool_calls` through its `type` tag (src/agent.py): a function call
carries a tool name, a call id and a JSON-encoded argument string; an MCP
approval request carries its id; every other item kind is bundled into
`other`. -/
inductive ResponseItem where
  | function_call (name : String) (call_id : String) (arguments : String)
  | mcp_approval_request (id : String)
  | other (ty : String)
deriving Repr, DecidableEq

/-- An input sent back to the service by `handle_tool_calls`: either a
`FunctionCallOutput` (call id plus serialized payload) or an
`McpApprovalResponse` (approval flag plus request id), as in src/agent.py. -/
inductive ToolCallResult where
  | functionCallOutput (call_id : String) (output : String)
  | mcpApprovalResponse (approve : Bool) (approval_request_id : String)
deriving Repr, DecidableEq

/-- The `FUNCTIONS` registry of src/agent.py: a single entry mapping
"calculate_pizza_for_people" to the handler imported from `tools.py` (the
handler itself is a parameter, its defining file not being among the
repository's sources). -/
def FUNCTIONS (calculate_pizza_tool : Json → Json) :
    String → Option (Json → Json) :=
  fun name =>
    if name = "calculate_pizza_for_people" then some calculate_pizza_tool
    else none

/-- Shallow embedding of `handle_tool_calls` (src/agent.py lines 14-25).
The loop walks `response.output`; for a `function_call` it looks the name
up in the registry, and only when a handler is found does it parse the
arguments (`json.loads`, modelled by `loads`, a parse failure being a
raised exception, modelled by `Except.error`), apply the handler and
serialize the wrapped value (`json.dumps`, modelled by `dumps`); an
unregistered name yields the serialized unknown-tool payload without any
parsing; an `mcp_approval_request` is answered by an unconditional
approval; any other item kind is skipped. -/
def handle_tool_calls (FUNCS : String → Option (Json → Json))
    (loads : String → Option Json) (dumps : Json → String) :
    List ResponseItem → Except String (List ToolCallResult)
  | [] => Except.ok []
  | item :: rest =>
    match item with
    | ResponseItem.function_call name call_id arguments =>
      match FUNCS name with
      | some func =>
        match loads arguments with
        | none => Except.error "json.JSONDecodeError"
        | some args =>
          (handle_tool_calls FUNCS loads dumps rest).map
            (fun inputs => ToolCallResult.functionCallOutput call_id
              (dumps (Json.obj [("result", func args)])) :: inputs)
      | none =>
        (handle_tool_calls FUNCS loads dumps rest).map
          (fun inputs => ToolCallResult.functionCallOutput call_id
            (dumps (Json.obj [("result",
              Json.obj [("error", Json.str "Unknown")])])) :: inputs)
    | ResponseItem.mcp_approval_request id =>
      (handle_tool_calls FUNCS loads dumps rest).map
        (fun inputs => ToolCallResult.mcpApprovalResponse true id :: inputs)
    | ResponseItem.other _ => handle_tool_calls FUNCS loads dumps rest

/-- The result `handle_tool_calls` emits for one pending item when no
exception occurs. -/
def okResult (FUNCS : String → Option (Json → Json))
    (loads : String → Option Json) (dumps : Json → String) :
    ResponseItem → Option ToolCallResult
  | ResponseItem.function_call name call_id arguments =>
    match FUNCS name with
    | some func =>
      match loads arguments with
      | some args => some (ToolCallResult.functionCallOutput call_id
          (dumps (Json.obj [("result", func args)])))
      | none => none
    | none => some (ToolCallResult.functionCallOutput call_id
        (dumps (Json.obj [("result",
          Json.obj [("error", Json.str "Unknown")])])))
  | ResponseItem.mcp_approval_request id =>
    some (ToolCallResult.mcpApprovalResponse true id)
  | ResponseItem.other _ => none

/-- A pending item raises no parse exception: a function call whose name is
registered must have arguments that `json.loads` accepts. -/
def ParsesOK (FUNCS : String → Option (Json → Json))
    (loads : String → Option Json) : ResponseItem → Prop
  | ResponseItem.function_call name _ arguments =>
    ∀ f, FUNCS name = some f → loads arguments ≠ none
  | ResponseItem.mcp_approval_request _ => True
  | ResponseItem.other _ => True

lemma except_map_eq_ok {ε α β : Type} (f : α → β) (x : Except ε α) (b : β) :
    x.map f = Except.ok b ↔ ∃ a, x = Except.ok a ∧ b = f a := by
  cases x <;> simp [Except.map, eq_comm]

/-- Master characterization: the dispatcher succeeds exactly when every
registered function call's arguments parse, and then returns the per-item
results in response order. -/
lemma handle_ok_iff (FUNCS : String → Option (Json → Json))
    (loads : String → Option Json) (dumps : Json → String)
    (items : List ResponseItem) (outs : List ToolCallResult) :
    handle_tool_calls FUNCS loads dumps items = Except.ok outs ↔
      ((∀ item ∈ items, ParsesOK FUNCS loads item) ∧
        outs = items.filterMap (okResult FUNCS loads dumps)) := by
  induction items generalizing outs with
  | nil => simp [handle_tool_calls, eq_comm]
  | cons item rest ih =>
    cases item with
    | function_call name call_id arguments =>
      cases hf : FUNCS name with
      | none =>
        simp only [handle_tool_calls, hf, except_map_eq_ok, ih, okResult,
          List.filterMap_cons, List.forall_mem_cons, ParsesOK]
        constructor
        · rintro ⟨restOuts, ⟨hcond, rfl⟩, rfl⟩
          refine ⟨⟨?_, hcond⟩, rfl⟩
          intro f hf2
          exact absurd hf2 (by simp)
        · rintro ⟨⟨_, hcond⟩, rfl⟩
          exact ⟨_, ⟨hcond, rfl⟩, rfl⟩
      | some func =>
        cases hl : loads arguments with
        | none =>
          simp only [handle_tool_calls, hf, hl, List.forall_mem_cons, ParsesOK]
          constructor
          · intro h
            exact Except.noConfusion h
          · rintro ⟨⟨hhead, _⟩, _⟩
            exact absurd rfl (hhead func rfl)
        | some args =>
          simp only [handle_tool_calls, hf, hl, except_map_eq_ok, ih, okResult,
            List.filterMap_cons, List.forall_mem_cons, ParsesOK]
          constructor
          · rintro ⟨restOuts, ⟨hcond, rfl⟩, rfl⟩
            refine ⟨⟨?_, hcond⟩, rfl⟩
            intro f _
            exact fun hc => Option.noConfusion hc
          · rintro ⟨⟨_, hcond⟩, rfl⟩
            exact ⟨_, ⟨hcond, rfl⟩, rfl⟩
    | mcp_approval_request id =>
      simp only [handle_tool_calls, except_map_eq_ok, ih, okResult,
        List.filterMap_cons, List.forall_mem_cons, ParsesOK, true_and]
      constructor
      · rintro ⟨restOuts, ⟨hcond, rfl⟩, rfl⟩
        exact ⟨hcond, rfl⟩
      · rintro ⟨hcond, rfl⟩
        exact ⟨_, ⟨hcond, rfl⟩, rfl⟩
    | other ty =>
      simp only [handle_tool_calls, ih, okResult, List.filterMap_cons,
        List.forall_mem_cons, ParsesOK, true_and]

/-- A stand-in handler used to instantiate the registry parameter of
`FUNCTIONS` in concrete evaluations. -/
def idHandler : Json → Json := fun j => j

/-- A concrete parse function for instantiations: it accepts the argument
string "good" and rejects every other string, as `json.loads` rejects a
malformed payload. -/
def loads_stub : String → Option Json :=
  fun s => if s = "good" then some (Json.obj []) else none

/-- A concrete serialization function for instantiations. -/
def dumps_stub : Json → String := fun _ => "serialized"

/-- C4: when every function call in the response names a registered handler
and has arguments that parse, the dispatcher succeeds and emits, in item
order, exactly one result per function call, keyed by its call id, whose
payload is the serialization of the wrapped handler value; approval
requests are answered and any other item kind yields nothing. -/
theorem handle_tool_calls_function_calls_ok
    (FUNCS : String → Option (Json → Json)) (loads : String → Option Json)
    (dumps : Json → String) (items : List ResponseItem)
    (h : ∀ name call_id arguments,
      ResponseItem.function_call name call_id arguments ∈ items →
      ∃ f j, FUNCS name = some f ∧ loads arguments = some j) :
    handle_tool_calls FUNCS loads dumps items =
      Except.ok (items.filterMap (fun item =>
        match item with
        | ResponseItem.function_call name call_id arguments =>
          (FUNCS name).bind (fun f => (loads arguments).map (fun j =>
            ToolCallResult.functionCallOutput call_id
              (dumps (Json.obj [("result", f j)]))))
        | ResponseItem.mcp_approval_request id =>
          some (ToolCallResult.mcpApprovalResponse true id)
        | ResponseItem.other _ => none)) := by
  have hcond : ∀ item ∈ items, ParsesOK FUNCS loads item := by
    intro item hm
    cases item with
    | function_call name call_id arguments =>
      intro f hf hl
      obtain ⟨f2, j, _, hl2⟩ := h name call_id arguments hm
      rw [hl2] at hl
      exact Option.noConfusion hl
    | mcp_approval_request id => trivial
    | other ty => trivial
  rw [(handle_ok_iff FUNCS loads dumps items _).mpr ⟨hcond, rfl⟩]
  congr 1
  apply List.filterMap_congr
  intro item hm
  cases item with
  | function_call name call_id arguments =>
    obtain ⟨f, j, hf, hl⟩ := h name call_id arguments hm
    simp [okResult, hf, hl]
  | mcp_approval_request id => rfl
  | other ty => rfl

/-- Witness for C4: one registered call with parseable arguments, one
approval request and one other item. -/
theorem handle_tool_calls_function_calls_ok_witness :
    (∀ name call_id arguments,
      ResponseItem.function_call name call_id arguments ∈
        [ResponseItem.function_call "calculate_pizza_for_people" "c1" "good",
         ResponseItem.mcp_approval_request "a1",
         ResponseItem.other "message"] →
      ∃ f j, FUNCTIONS idHandler name = some f ∧ loads_stub arguments = some j) ∧
    handle_tool_calls (FUNCTIONS idHandler) loads_stub dumps_stub
        [ResponseItem.function_call "calculate_pizza_for_people" "c1" "good",
         ResponseItem.mcp_approval_request "a1",
         ResponseItem.other "message"] =
      Except.ok
        ([ResponseItem.function_call "calculate_pizza_for_people" "c1" "good",
          ResponseItem.mcp_approval_request "a1",
          ResponseItem.other "message"].filterMap (fun item =>
          match item with
          | ResponseItem.function_call name call_id arguments =>
            (FUNCTIONS idHandler name).bind (fun f =>
              (loads_stub arguments).map (fun j =>
                ToolCallResult.functionCallOutput call_id
                  (dumps_stub (Json.obj [("result", f j)]))))
          | ResponseItem.mcp_approval_request id =>
            some (ToolCallResult.mcpApprovalResponse true id)
          | ResponseItem.other _ => none)) := by
  have h : ∀ name call_id arguments,
      ResponseItem.function_call name call_id arguments ∈
        [ResponseItem.function_call "calculate_pizza_for_people" "c1" "good",
         ResponseItem.mcp_approval_request "a1",
         ResponseItem.other "message"] →
      ∃ f j, FUNCTIONS idHandler name = some f ∧ loads_stub arguments = some j := by
    intro name call_id arguments hm
    rcases List.mem_cons.mp hm with heq | hm2
    · injection heq with h1 h2 h3
      subst h1
      subst h3
      exact ⟨idHandler, Json.obj [], rfl, rfl⟩
    · rcases List.mem_cons.mp hm2 with heq | hm3
      · exact ResponseItem.noConfusion heq
      · rcases List.mem_cons.mp hm3 with heq | hm4
        · exact ResponseItem.noConfusion heq
        · exact absurd hm4 (List.not_mem_nil _)
  exact ⟨h, handle_tool_calls_function_calls_ok _ _ _ _ h⟩

/-- C5: whenever the dispatcher returns results, every approval request in
the response is answered by an approving result, and every approval result
it ever emits has approve = true — the policy is unconditional. -/
theorem handle_tool_calls_approves_all
    (FUNCS : String → Option (Json → Json)) (loads : String → Option Json)
    (dumps : Json → String) (items : List ResponseItem)
    (outs : List ToolCallResult)
    (h : handle_tool_calls FUNCS loads dumps items = Except.ok outs) :
    (∀ id, ResponseItem.mcp_approval_request id ∈ items →
      ToolCallResult.mcpApprovalResponse true id ∈ outs) ∧
    (∀ b id, ToolCallResult.mcpApprovalResponse b id ∈ outs → b = true) := by
  obtain ⟨hcond, rfl⟩ := (handle_ok_iff FUNCS loads dumps items outs).mp h
  constructor
  · intro id hm
    exact List.mem_filterMap.mpr ⟨_, hm, rfl⟩
  · intro b id hm
    obtain ⟨item, hmi, hok⟩ := List.mem_filterMap.mp hm
    cases item with
    | function_call name call_id arguments =>
      cases hf : FUNCS name with
      | some func =>
        cases hl : loads arguments with
        | some args => simp [okResult, hf, hl] at hok
        | none => simp [okResult, hf, hl] at hok
      | none => simp [okResult, hf] at hok
    | mcp_approval_request id2 =>
      injection hok with h1
      injection h1 with hb hid
      exact hb.symm
    | other ty => exact Option.noConfusion hok

/-- Witness for C5: a response holding exactly one approval request. -/
theorem handle_tool_calls_approves_all_witness :
    handle_tool_calls (FUNCTIONS idHandler) loads_stub dumps_stub
        [ResponseItem.mcp_approval_request "a1"] =
      Except.ok [ToolCallResult.mcpApprovalResponse true "a1"] ∧
    ((∀ id, ResponseItem.mcp_approval_request id ∈
        [ResponseItem.mcp_approval_request "a1"] →
      ToolCallResult.mcpApprovalResponse true id ∈
        [ToolCallResult.mcpApprovalResponse true "a1"]) ∧
     (∀ b id, ToolCallResult.mcpApprovalResponse b id ∈
        [ToolCallResult.mcpApprovalResponse true "a1"] → b = true)) :=
  ⟨rfl, handle_tool_calls_approves_all (FUNCTIONS idHandler) loads_stub dumps_stub
    [ResponseItem.mcp_approval_request "a1"]
    [ToolCallResult.mcpApprovalResponse true "a1"] rfl⟩

/-- Counterexample to C6 as stated: a response that does contain a function
call to an unregistered name ("bogus") but whose first item is a registered
call with malformed arguments; the dispatcher raises instead of emitting
the unknown-tool result. -/
theorem handle_tool_calls_unknown_tool_cex :
    FUNCTIONS idHandler "bogus" = none ∧
    loads_stub "oops" = none ∧
    handle_tool_calls (FUNCTIONS idHandler) loads_stub dumps_stub
        [ResponseItem.function_call "calculate_pizza_for_people" "c1" "oops",
         ResponseItem.function_call "bogus" "c2" "good"] =
      Except.error "json.JSONDecodeError" :=
  ⟨rfl, rfl, rfl⟩

/-- C6 (amended): for a response containing a function call to an
unregistered name, provided every registered function call's arguments
parse, the dispatcher does not raise and emits the unknown-tool error
result for that call; a response whose only item is such a call yields
exactly that single result. -/
theorem handle_tool_calls_unknown_tool
    (FUNCS : String → Option (Json → Json)) (loads : String → Option Json)
    (dumps : Json → String) (items : List ResponseItem)
    (name call_id arguments : String)
    (hmem : ResponseItem.function_call name call_id arguments ∈ items)
    (hF : FUNCS name = none)
    (hok : ∀ item ∈ items, ParsesOK FUNCS loads item) :
    ∃ outs, handle_tool_calls FUNCS loads dumps items = Except.ok outs ∧
      ToolCallResult.functionCallOutput call_id
        (dumps (Json.obj [("result",
          Json.obj [("error", Json.str "Unknown")])])) ∈ outs ∧
      (items = [ResponseItem.function_call name call_id arguments] →
        outs = [ToolCallResult.functionCallOutput call_id
          (dumps (Json.obj [("result",
            Json.obj [("error", Json.str "Unknown")])]))]) := by
  refine ⟨_, (handle_ok_iff FUNCS loads dumps items _).mpr ⟨hok, rfl⟩, ?_, ?_⟩
  · exact List.mem_filterMap.mpr ⟨_, hmem, by simp [okResult, hF]⟩
  · intro hitems
    subst hitems
    simp [okResult, hF, List.filterMap_cons]

/-- Witness for C6: a response whose single item calls the unregistered
name "bogus". -/
theorem handle_tool_calls_unknown_tool_witness :
    ∃ outs, handle_tool_calls (FUNCTIONS idHandler) loads_stub dumps_stub
        [ResponseItem.function_call "bogus" "c2" "good"] = Except.ok outs ∧
      ToolCallResult.functionCallOutput "c2"
        (dumps_stub (Json.obj [("result",
          Json.obj [("error", Json.str "Unknown")])])) ∈ outs ∧
      ([ResponseItem.function_call "bogus" "c2" "good"] =
          [ResponseItem.function_call "bogus" "c2" "good"] →
        outs = [ToolCallResult.functionCallOutput "c2"
          (dumps_stub (Json.obj [("result",
            Json.obj [("error", Json.str "Unknown")])]))]) :=
  handle_tool_calls_unknown_tool _ _ _ _ _ _ _
    (List.mem_singleton.mpr rfl) rfl (by
      intro item hm
      rw [List.mem_singleton] at hm
      subst hm
      intro f hf
      exact absurd hf (by simp [FUNCTIONS]))

/-- C7: a response with no pending items (no function calls, no approval
requests) makes the dispatcher return the empty sequence. -/
theorem handle_tool_calls_no_pending_empty
    (FUNCS : String → Option (Json → Json)) (loads : String → Option Json)
    (dumps : Json → String) (items : List ResponseItem)
    (h : ∀ item ∈ items,
      (∀ name call_id arguments,
        item ≠ ResponseItem.function_call name call_id arguments) ∧
      (∀ id, item ≠ ResponseItem.mcp_approval_request id)) :
    handle_tool_calls FUNCS loads dumps items = Except.ok [] := by
  have hcond : ∀ item ∈ items, ParsesOK FUNCS loads item := by
    intro item hm
    cases item with
    | function_call name call_id arguments =>
      exact absurd rfl ((h _ hm).1 name call_id arguments)
    | mcp_approval_request id => trivial
    | other ty => trivial
  have hnil : items.filterMap (okResult FUNCS loads dumps) = [] := by
    rw [List.filterMap_eq_nil_iff]
    intro item hm
    cases item with
    | function_call name call_id arguments =>
      exact absurd rfl ((h _ hm).1 name call_id arguments)
    | mcp_approval_request id => exact absurd rfl ((h _ hm).2 id)
    | other ty => rfl
  have hrun := (handle_ok_iff FUNCS loads dumps items
    (items.filterMap (okResult FUNCS loads dumps))).mpr ⟨hcond, rfl⟩
  rw [hrun, hnil]

/-- Witness for C7: a response whose single item is of another kind. -/
theorem handle_tool_calls_no_pending_empty_witness :
    (∀ item ∈ [ResponseItem.other "message"],
      (∀ name call_id arguments,
        item ≠ ResponseItem.function_call name call_id arguments) ∧
      (∀ id, item ≠ ResponseItem.mcp_approval_request id)) ∧
    handle_tool_calls (FUNCTIONS idHandler) loads_stub dumps_stub
      [ResponseItem.other "message"] = Except.ok [] := by
  have h : ∀ item ∈ [ResponseItem.other "message"],
      (∀ name call_id arguments,
        item ≠ ResponseItem.function_call name call_id arguments) ∧
      (∀ id, item ≠ ResponseItem.mcp_approval_request id) := by
    intro item hm
    rw [List.mem_singleton] at hm
    subst hm
    exact ⟨fun name call_id arguments hc => ResponseItem.noConfusion hc,
      fun id hc => ResponseItem.noConfusion hc⟩
  exact ⟨h, handle_tool_calls_no_pending_empty _ _ _ _ h⟩

/-- Counterexample to C8 as stated: a function call whose arguments are
malformed (its parse fails) but whose name is unregistered; the dispatcher
does not raise — it never parses those arguments and emits the
unknown-tool result instead. -/
theorem handle_tool_calls_malformed_args_cex :
    FUNCTIONS idHandler "bogus" = none ∧
    loads_stub "oops" = none ∧
    handle_tool_calls (FUNCTIONS idHandler) loads_stub dumps_stub
        [ResponseItem.function_call "bogus" "c1" "oops"] =
      Except.ok [ToolCallResult.functionCallOutput "c1"
        (dumps_stub (Json.obj [("result",
          Json.obj [("error", Json.str "Unknown")])]))] :=
  ⟨rfl, rfl, rfl⟩

/-- C8 (amended): a response containing a function call to a registered
name whose arguments payload does not parse makes the dispatcher raise —
the turn fails and no result list is produced. -/
theorem handle_tool_calls_malformed_args_fatal
    (FUNCS : String → Option (Json → Json)) (loads : String → Option Json)
    (dumps : Json → String) (items : List ResponseItem)
    (name call_id arguments : String) (func : Json → Json)
    (hmem : ResponseItem.function_call name call_id arguments ∈ items)
    (hf : FUNCS name = some func) (hl : loads arguments = none) :
    ∃ e, handle_tool_calls FUNCS loads dumps items = Except.error e := by
  cases hh : handle_tool_calls FUNCS loads dumps items with
  | error e => exact ⟨e, rfl⟩
  | ok outs =>
    obtain ⟨hcond, _⟩ := (handle_ok_iff FUNCS loads dumps items outs).mp hh
    exact absurd hl (hcond _ hmem func hf)

/-- Witness for C8 (amended): the registered name with an argument string
the parser rejects. -/
theorem handle_tool_calls_malformed_args_fatal_witness :
    FUNCTIONS idHandler "calculate_pizza_for_people" = some idHandler ∧
    loads_stub "oops" = none ∧
    (∃ e, handle_tool_calls (FUNCTIONS idHandler) loads_stub dumps_stub
      [ResponseItem.function_call "calculate_pizza_for_people" "c1" "oops"] =
        Except.error e) :=
  ⟨rfl, rfl,
    handle_tool_calls_malformed_args_fatal _ _ _ _ _ _ _ _
      (List.mem_singleton.mpr rfl) rfl rfl⟩

/-- C10: a function call to an unregistered name never has its arguments
parsed — the dispatcher returns the unknown-tool result for any parse
function, including one failing on that argument string — and conversely
the dispatcher can only raise on account of a registered function call
whose arguments fail to parse. -/
theorem handle_tool_calls_unknown_skips_parse
    (FUNCS : String → Option (Json → Json)) (dumps : Json → String) :
    (∀ (loads : String → Option Json) (name call_id arguments : String),
      FUNCS name = none →
      handle_tool_calls FUNCS loads dumps
          [ResponseItem.function_call name call_id arguments] =
        Except.ok [ToolCallResult.functionCallOutput call_id
          (dumps (Json.obj [("result",
            Json.obj [("error", Json.str "Unknown")])]))]) ∧
    (∀ (loads : String → Option Json) (items : List ResponseItem) (e : String),
      handle_tool_calls FUNCS loads dumps items = Except.error e →
      ∃ name call_id arguments func,
        ResponseItem.function_call name call_id arguments ∈ items ∧
        FUNCS name = some func ∧ loads arguments = none) := by
  constructor
  · intro loads name call_id arguments hF
    simp [handle_tool_calls, hF, Except.map]
  · intro loads items e h
    by_contra hno
    push_neg at hno
    have hcond : ∀ item ∈ items, ParsesOK FUNCS loads item := by
      intro item hm
      cases item with
      | function_call name call_id arguments =>
        intro func hf hl
        exact hno name call_id arguments func hm hf hl
      | mcp_approval_request id => trivial
      | other ty => trivial
    have hok := (handle_ok_iff FUNCS loads dumps items
      (items.filterMap (okResult FUNCS loads dumps))).mpr ⟨hcond, rfl⟩
    rw [h] at hok
    exact Except.noConfusion hok

/-! ## HTTPFacade (src/pizza_api.py) -/

/-- The request body of POST /calculate_pizza: people_count is required,
appetite_level defaults to "normal" (src/pizza_api.py, PizzaRequest). -/
structure PizzaRequest where
  people_count : Int
  appetite_level : String := "normal"
deriving Repr, DecidableEq

/-- The response body: the estimator's result under the key
`recommendation` (src/pizza_api.py). -/
structure CalculatePizzaResponse where
  recommendation : PizzaOrderEstimate
deriving Repr, DecidableEq

/-- Shallow embedding of the endpoint handler `calculate_pizza`
(src/pizza_api.py lines 11-14): forward the body's fields to
`calculate_pizza_for_people` and wrap the result. -/
def calculate_pizza (req : PizzaRequest) : Except String CalculatePizzaResponse :=
  (calculate_pizza_for_people req.people_count req.appetite_level).map
    (fun result => { recommendation := result })

/-- Construction of the request model from a body in which appetite_level
may be absent, applying the declared default "normal". -/
def parsePizzaRequest (people_count : Int) (appetite_level : Option String) :
    PizzaRequest :=
  { people_count := people_count
    appetite_level := appetite_level.getD "normal" }

/-- C9: POST /calculate_pizza returns exactly the estimator's result under
the key `recommendation`, the appetite level defaulting to "normal" when
the body leaves it unspecified; e.g. body (4, light) yields
recommendation (1 pizza, 2 slices per person). -/
theorem calculate_pizza_endpoint (pc : Int) (al : Option String) :
    calculate_pizza (parsePizzaRequest pc al) =
      (calculate_pizza_for_people pc (al.getD "normal")).map
        (fun result => { recommendation := result }) ∧
    (parsePizzaRequest pc none).appetite_level = "normal" ∧
    calculate_pizza { people_count := 4, appetite_level := "light" } =
      Except.ok { recommendation := { pizza_count := 1, slices_per_person := 2 } } :=
  ⟨rfl, rfl, rfl⟩

end PizzaWorkshop
